import Mathlib

/-!
Verification of the code-generation pipeline of the strands visual builder
backend.  Python functions from `backend/services/agent_service.py`,
`backend/services/s3_code_storage_service.py` and `model_utils.py` are
shallowly embedded as executable Lean functions over `String` / `List Char`
(one Lean `Char` per Python `str` code point), and the behavioural claims of
the specification are proved or refuted against them.
-/

/-! ## Python string primitives -/

/-- The characters Python's `str.strip` / `str.rstrip` (and the regex class
`\s`, restricted to ASCII) treat as whitespace. -/
def pyIsSpace (c : Char) : Bool :=
  c = ' ' || c = '\t' || c = '\n' || c = '\r' || c = '\x0b' || c = '\x0c'

/-- Python `str.rstrip()` on the character list of a string. -/
def pyRstrip (l : List Char) : List Char :=
  (l.reverse.dropWhile pyIsSpace).reverse

/-- Python `str.lstrip()` on the character list of a string. -/
def pyLstrip (l : List Char) : List Char :=
  l.dropWhile pyIsSpace

/-- Python `str.strip()` on the character list of a string. -/
def pyStrip (l : List Char) : List Char :=
  pyRstrip (pyLstrip l)

/-- Python `str.strip()` on strings. -/
def pyStripS (s : String) : String :=
  String.mk (pyStrip s.data)

/-- Python `pat in s` substring test on character lists. -/
def hasSub (pat : List Char) : List Char → Bool
  | [] => pat.isPrefixOf ([] : List Char)
  | c :: t => pat.isPrefixOf (c :: t) || hasSub pat t

/-- Python `pat in s` substring test on strings. -/
def hasSubS (pat s : String) : Bool :=
  hasSub pat.data s.data

/-- Python `s.startswith(pre)` on strings. -/
def pyStartswith (s pre : String) : Bool :=
  pre.data.isPrefixOf s.data

/-- Python `s[:n]` (slice of the first `n` code points) on strings. -/
def pyTake (n : Nat) (s : String) : String :=
  String.mk (s.data.take n)

/-- Python `str.lower()` (ASCII scope) on strings. -/
def pyLower (s : String) : String :=
  String.mk (s.data.map Char.toLower)

/-! ## `AgentService._cleanup_code_formatting`
(`backend/services/agent_service.py`).  The source normalizes line endings
with `code.replace('\r\n', '\n').replace('\r', '\n')`, collapses newline runs
with `re.sub(r'\n{3,}', '\n\n', code)` and finally runs
`code.rstrip() + '\n'`; empty input is returned unchanged. -/

/-- Python `str.replace('\r\n', '\n')`: left-to-right non-overlapping
replacement of the two-character sequence CR LF by LF. -/
def replaceCRLF : List Char → List Char
  | [] => []
  | [c] => [c]
  | c1 :: c2 :: t =>
    if c1 = '\r' ∧ c2 = '\n' then '\n' :: replaceCRLF t
    else c1 :: replaceCRLF (c2 :: t)

/-- Python `str.replace('\r', '\n')`. -/
def replaceCR : List Char → List Char
  | [] => []
  | c :: t => (if c = '\r' then '\n' else c) :: replaceCR t

/-- Drop a leading run of newline characters. -/
def dropNL : List Char → List Char
  | '\n' :: t => dropNL t
  | t => t

theorem dropNL_length : ∀ t : List Char, (dropNL t).length ≤ t.length := by
  intro t
  induction t with
  | nil => simp [dropNL]
  | cons c t ih =>
    by_cases h : c = '\n'
    · subst h; simpa [dropNL] using Nat.le_succ_of_le ih
    · simp [dropNL, h]

/-- Python `re.sub(r'\n{3,}', '\n\n', code)`: each maximal run of three or
more newlines is replaced by exactly two newlines. -/
def collapseNL : List Char → List Char
  | '\n' :: '\n' :: '\n' :: t => '\n' :: '\n' :: collapseNL (dropNL t)
  | c :: t => c :: collapseNL t
  | [] => []
termination_by l => l.length
decreasing_by
  · exact Nat.lt_of_le_of_lt (dropNL_length t)
      (by simp [List.length_cons]; omega)
  · simp [List.length_cons]

/-- `AgentService._cleanup_code_formatting`: the final formatting cleanup of
extracted code.  (The escape-sequence check in the source only logs and does
not alter the string, so it has no functional content here.) -/
def cleanupCodeFormatting (code : String) : String :=
  if code = "" then code
  else String.mk (pyRstrip (collapseNL (replaceCR (replaceCRLF code.data))) ++ ['\n'])

/-! ### Structure of cleaned-up strings -/

/-- `l` contains three consecutive newline characters somewhere. -/
def has3NL : List Char → Bool
  | a :: b :: c :: t => (a = '\n' && b = '\n' && c = '\n') || has3NL (b :: c :: t)
  | _ => false

theorem replaceCR_not_mem_cr (l : List Char) : '\r' ∉ replaceCR l := by
  induction l with
  | nil => simp [replaceCR]
  | cons c t ih =>
    by_cases h : c = '\r' <;> simp [replaceCR, h, ih]
    intro hc
    exact h hc.symm

theorem replaceCRLF_of_not_mem_cr : ∀ l : List Char, '\r' ∉ l → replaceCRLF l = l := by
  intro l
  induction l using replaceCRLF.induct with
  | case1 => simp [replaceCRLF]
  | case2 c => simp [replaceCRLF]
  | case3 c1 c2 t h ih =>
    intro hmem
    obtain ⟨h1, h2⟩ := h
    subst h1
    exact absurd (List.mem_cons_self _ _) hmem
  | case4 c1 c2 t h ih =>
    intro hmem
    have h2 : '\r' ∉ c2 :: t := by
      intro h'; exact hmem (List.mem_cons_of_mem _ h')
    simp only [replaceCRLF]
    rw [if_neg (by intro h'; exact hmem (h'.1 ▸ List.mem_cons_self _ _))]
    rw [ih h2]

theorem replaceCR_of_not_mem_cr : ∀ l : List Char, '\r' ∉ l → replaceCR l = l := by
  intro l
  induction l with
  | nil => simp [replaceCR]
  | cons c t ih =>
    intro hmem
    have h1 : c ≠ '\r' := by intro h'; exact hmem (h' ▸ List.mem_cons_self _ _)
    have h2 : '\r' ∉ t := by intro h'; exact hmem (List.mem_cons_of_mem _ h')
    simp [replaceCR, h1, ih h2]

theorem dropNL_mem {c : Char} : ∀ {t : List Char}, c ∈ dropNL t → c ∈ t := by
  intro t
  induction t with
  | nil => simp [dropNL]
  | cons a t ih =>
    by_cases h : a = '\n'
    · subst h
      intro hm
      exact List.mem_cons_of_mem _ (ih (by simpa [dropNL] using hm))
    · simp [dropNL, h]

theorem collapseNL_mem {c : Char} (hc : c ≠ '\n') :
    ∀ {l : List Char}, c ∈ collapseNL l → c ∈ l := by
  intro l
  induction l using collapseNL.induct with
  | case1 t ih =>
    intro hm
    simp only [collapseNL, List.mem_cons] at hm
    rcases hm with h | h | h
    · exact absurd h hc
    · exact absurd h hc
    · exact List.mem_cons_of_mem _ (List.mem_cons_of_mem _
        (List.mem_cons_of_mem _ (dropNL_mem (ih h))))
  | case2 a t h ih =>
    intro hm
    simp only [collapseNL, List.mem_cons] at hm
    rcases hm with h' | h'
    · exact h' ▸ List.mem_cons_self _ _
    · exact List.mem_cons_of_mem _ (ih h')
  | case3 => simp [collapseNL]

theorem collapseNL_head? (l : List Char) : (collapseNL l).head? = l.head? := by
  rw [collapseNL.eq_def]
  split <;> simp

theorem collapseNL_cons_of_cond {c : Char} {t : List Char}
    (h : ∀ t1 : List Char, c = '\n' → t = '\n' :: '\n' :: t1 → False) :
    collapseNL (c :: t) = c :: collapseNL t := by
  by_cases hc : c = '\n'
  · subst hc
    match t with
    | [] => simp [collapseNL]
    | [a] => by_cases ha : a = '\n' <;> simp [collapseNL, ha]
    | a :: b :: t' =>
      have hab : ¬(a = '\n' ∧ b = '\n') := by
        rintro ⟨h1, h2⟩
        exact h t' rfl (by rw [h1, h2])
      rcases Decidable.not_and_iff_or_not.mp hab with h' | h' <;> simp [collapseNL, h']
  · simp [collapseNL, hc]

theorem collapseNL_take2 (l : List Char) : (collapseNL l).take 2 = l.take 2 := by
  match l with
  | [] => simp [collapseNL]
  | c :: t =>
    by_cases hpat : ∃ t1 : List Char, c = '\n' ∧ t = '\n' :: '\n' :: t1
    · obtain ⟨t1, hc, ht⟩ := hpat
      subst hc; subst ht
      simp [collapseNL]
    · rw [collapseNL_cons_of_cond (by rintro t1 hc ht; exact hpat ⟨t1, hc, ht⟩)]
      match t with
      | [] => simp [collapseNL]
      | x :: t' =>
        cases hcl : collapseNL (x :: t') with
        | nil => have := collapseNL_head? (x :: t'); rw [hcl] at this; simp at this
        | cons y r =>
          have := collapseNL_head? (x :: t')
          rw [hcl] at this
          simp at this
          subst this
          simp

theorem has3NL_tail_false {c : Char} {t : List Char}
    (h : has3NL (c :: t) = false) : has3NL t = false := by
  match t with
  | [] => simp [has3NL]
  | [a] => simp [has3NL]
  | a :: b :: t' =>
    simp only [has3NL, Bool.or_eq_false_iff] at h
    exact h.2

theorem has3NL_cons_false_intro {c : Char} {l : List Char}
    (h1 : ¬(c = '\n' ∧ l.take 2 = ['\n', '\n'])) (h2 : has3NL l = false) :
    has3NL (c :: l) = false := by
  match l with
  | [] => simp [has3NL]
  | [a] => simp [has3NL]
  | a :: b :: t =>
    simp only [has3NL, Bool.or_eq_false_iff]
    refine ⟨?_, h2⟩
    simp only [Bool.and_eq_false_iff]
    by_cases hc : c = '\n'
    · by_cases ha : a = '\n'
      · by_cases hb : b = '\n'
        · exact absurd ⟨hc, by simp [ha, hb]⟩ h1
        · simp [hb]
      · simp [ha]
    · simp [hc]

theorem dropNL_head_ne : ∀ t : List Char, (dropNL t).head? ≠ some '\n' := by
  intro t
  induction t with
  | nil => simp [dropNL]
  | cons c t ih =>
    by_cases h : c = '\n'
    · subst h; simpa [dropNL] using ih
    · simp [dropNL, h]

theorem collapseNL_of_has3NL_false : ∀ l : List Char, has3NL l = false → collapseNL l = l := by
  intro l
  induction l using collapseNL.induct with
  | case1 t ih => intro h; simp [has3NL] at h
  | case2 c t h ih =>
    intro h3
    rw [collapseNL_cons_of_cond h, ih (has3NL_tail_false h3)]
  | case3 => simp [collapseNL]

theorem has3NL_collapseNL (l : List Char) : has3NL (collapseNL l) = false := by
  induction l using collapseNL.induct with
  | case1 t ih =>
    simp only [collapseNL]
    cases hcl : collapseNL (dropNL t) with
    | nil => simp [has3NL]
    | cons x r =>
      have hx : x ≠ '\n' := by
        have h1 := dropNL_head_ne t
        rw [← collapseNL_head? (dropNL t), hcl] at h1
        simp at h1
        intro h'; exact h1 h'
      rw [hcl] at ih
      have hinner : has3NL ('\n' :: x :: r) = false := by
        apply has3NL_cons_false_intro _ ih
        rintro ⟨-, htk⟩
        cases r with
        | nil => simp at htk
        | cons y r' =>
          simp at htk
          exact hx htk.1
      apply has3NL_cons_false_intro _ hinner
      rintro ⟨-, htk⟩
      simp at htk
      exact hx htk
  | case2 c t h ih =>
    rw [collapseNL_cons_of_cond h]
    apply has3NL_cons_false_intro _ ih
    rw [collapseNL_take2]
    rintro ⟨hc, ht⟩
    match t, ht with
    | a :: b :: t'', ht =>
      simp at ht
      exact h t'' hc (by rw [ht.1, ht.2])
  | case3 => simp [collapseNL, has3NL]

theorem dropWhile_shape (p : Char → Bool) (l : List Char) :
    l.dropWhile p = [] ∨ ∃ c r, l.dropWhile p = c :: r ∧ p c = false := by
  induction l with
  | nil => exact Or.inl rfl
  | cons c t ih =>
    by_cases h : p c
    · simpa [List.dropWhile_cons_of_pos h] using ih
    · exact Or.inr ⟨c, t, List.dropWhile_cons_of_neg (by simpa using h), by simpa using h⟩

theorem pyRstrip_shape (l : List Char) :
    pyRstrip l = [] ∨ ∃ w c, pyRstrip l = w ++ [c] ∧ pyIsSpace c = false := by
  rcases dropWhile_shape pyIsSpace l.reverse with h | ⟨c, r, h, hc⟩
  · exact Or.inl (by simp [pyRstrip, h])
  · exact Or.inr ⟨r.reverse, c, by simp [pyRstrip, h], hc⟩

theorem pyRstrip_mem {c : Char} {l : List Char} (h : c ∈ pyRstrip l) : c ∈ l := by
  simp only [pyRstrip, List.mem_reverse] at h
  have := (List.dropWhile_sublist (l := l.reverse) pyIsSpace).mem h
  simpa using this

theorem pyRstrip_append_nl (l : List Char) : pyRstrip (l ++ ['\n']) = pyRstrip l := by
  simp only [pyRstrip, List.reverse_append, List.reverse_cons, List.reverse_nil,
    List.nil_append, List.singleton_append]
  rw [List.dropWhile_cons_of_pos (by simp [pyIsSpace])]

theorem dropWhile_idem (p : Char → Bool) (l : List Char) :
    (l.dropWhile p).dropWhile p = l.dropWhile p := by
  rcases dropWhile_shape p l with h | ⟨c, r, h, hc⟩
  · simp [h]
  · rw [h, List.dropWhile_cons_of_neg (by simp [hc])]

theorem pyRstrip_idem (l : List Char) : pyRstrip (pyRstrip l) = pyRstrip l := by
  simp only [pyRstrip, List.reverse_reverse]
  rw [dropWhile_idem]

theorem has3NL_append_mono {w : List Char} (r : List Char) (h : has3NL w = true) :
    has3NL (w ++ r) = true := by
  induction w using has3NL.induct with
  | case1 a b c t ih =>
    simp only [has3NL, Bool.or_eq_true] at h
    simp only [List.cons_append, has3NL, Bool.or_eq_true]
    rcases h with h | h
    · exact Or.inl h
    · exact Or.inr (by simpa using ih h)
  | case2 x hx =>
    rw [show has3NL x = false from ?_] at h
    · cases h
    · match x, hx with
      | [], _ => rfl
      | [a], _ => rfl
      | [a, b], _ => rfl
      | a :: b :: c :: t, hx => exact (hx a b c t rfl).elim

theorem has3NL_append_nl_false {w : List Char} (hw : has3NL w = false)
    (hend : ¬∃ u, w = u ++ ['\n', '\n']) : has3NL (w ++ ['\n']) = false := by
  induction w using has3NL.induct with
  | case1 a b c t ih =>
    simp only [has3NL, Bool.or_eq_false_iff] at hw
    simp only [List.cons_append, has3NL, Bool.or_eq_false_iff]
    refine ⟨hw.1, ?_⟩
    have hend' : ¬∃ u, b :: c :: t = u ++ ['\n', '\n'] := by
      rintro ⟨u, hu⟩
      exact hend ⟨a :: u, by simp [hu]⟩
    simpa using ih hw.2 hend'
  | case2 x hx =>
    match x, hx with
    | [], _ => rfl
    | [a], _ => rfl
    | [a, b], _ =>
      have hab : ¬(a = '\n' ∧ b = '\n') := by
        rintro ⟨h1, h2⟩
        exact hend ⟨[], by rw [h1, h2]; rfl⟩
      rcases Decidable.not_and_iff_or_not.mp hab with h' | h' <;> simp [has3NL, h']
    | a :: b :: c :: t, hx => exact (hx a b c t rfl).elim

/-- One full pass of the cleanup pipeline body is a fixpoint of a second pass. -/
theorem cleanup_pipeline_fixpoint (x : List Char) :
    pyRstrip (collapseNL (replaceCR (replaceCRLF
        (pyRstrip (collapseNL (replaceCR (replaceCRLF x))) ++ ['\n'])))) =
      pyRstrip (collapseNL (replaceCR (replaceCRLF x))) := by
  set z := collapseNL (replaceCR (replaceCRLF x)) with hz
  set w := pyRstrip z with hw
  have hnoCR : '\r' ∉ w ++ ['\n'] := by
    intro hmem
    rcases List.mem_append.mp hmem with h | h
    · exact replaceCR_not_mem_cr _ (collapseNL_mem (by decide) (pyRstrip_mem h))
    · simp at h
  rw [replaceCRLF_of_not_mem_cr _ hnoCR, replaceCR_of_not_mem_cr _ hnoCR]
  have hz3 : has3NL z = false := has3NL_collapseNL _
  have hw3 : has3NL w = false := by
    by_contra hcon
    have hwT : has3NL w = true := by
      cases hres : has3NL w
      · exact absurd hres hcon
      · rfl
    have hpre : w <+: z := by
      rw [hw, pyRstrip]
      have : z.reverse.dropWhile pyIsSpace <:+ z.reverse := List.dropWhile_suffix _
      rw [← List.reverse_prefix] at this
      simpa using this
    obtain ⟨r, hr⟩ := hpre
    rw [← hr, has3NL_append_mono r hwT] at hz3
    cases hz3
  have hend : ¬∃ u, w = u ++ ['\n', '\n'] := by
    rintro ⟨u, hu⟩
    rcases pyRstrip_shape z with h | ⟨w', c, h, hc⟩
    · rw [← hw] at h
      rw [h] at hu
      exact absurd hu.symm (by simp)
    · rw [← hw] at h
      have h1 : w.getLast? = some c := h ▸ List.getLast?_concat _
      have h2 : w.getLast? = some '\n' := by
        rw [hu, show u ++ ['\n', '\n'] = (u ++ ['\n']) ++ ['\n'] by simp]
        exact List.getLast?_concat _
      rw [h1] at h2
      injection h2 with h3
      rw [h3] at hc
      simp [pyIsSpace] at hc
  rw [collapseNL_of_has3NL_false _ (has3NL_append_nl_false hw3 hend)]
  rw [pyRstrip_append_nl, hw, pyRstrip_idem]

/-- C7: `_cleanup_code_formatting` is idempotent: applying it twice
yields the same output as applying it once. -/
theorem cleanup_code_formatting_idempotent (s : String) :
    cleanupCodeFormatting (cleanupCodeFormatting s) = cleanupCodeFormatting s := by
  by_cases hs : s = ""
  · subst hs
    simp [cleanupCodeFormatting]
  · rw [show cleanupCodeFormatting s =
        String.mk (pyRstrip (collapseNL (replaceCR (replaceCRLF s.data))) ++ ['\n']) by
      simp [cleanupCodeFormatting, hs]]
    have hne : String.mk (pyRstrip (collapseNL (replaceCR (replaceCRLF s.data))) ++ ['\n']) ≠ "" := by
      intro h
      have := congrArg String.data h
      simp at this
    rw [cleanupCodeFormatting, if_neg hne]
    rw [show (String.mk (pyRstrip (collapseNL (replaceCR (replaceCRLF s.data))) ++ ['\n'])).data
        = pyRstrip (collapseNL (replaceCR (replaceCRLF s.data))) ++ ['\n'] from rfl]
    rw [cleanup_pipeline_fixpoint]

/-- C10: on every non-empty input the cleanup output ends with exactly one
newline (its last character is a newline and the character before it, when
present, is not); the empty string is returned unchanged. -/
theorem cleanup_trailing_newline (s : String) (hs : s ≠ "") :
    (∃ w, (cleanupCodeFormatting s).data = w ++ ['\n'] ∧ w.getLastD ' ' ≠ '\n') ∧
      cleanupCodeFormatting "" = "" := by
  constructor
  · refine ⟨pyRstrip (collapseNL (replaceCR (replaceCRLF s.data))), ?_, ?_⟩
    · simp [cleanupCodeFormatting, hs]
    · rcases pyRstrip_shape (collapseNL (replaceCR (replaceCRLF s.data))) with h | ⟨w', c, h, hc⟩
      · rw [h]
        decide
      · rw [h, List.getLastD_eq_getLast?, List.getLast?_concat w']
        intro hcon
        simp at hcon
        rw [hcon] at hc
        simp [pyIsSpace] at hc
  · simp [cleanupCodeFormatting]

theorem cleanup_trailing_newline_witness :
    ("x" : String) ≠ "" ∧
      ((∃ w, (cleanupCodeFormatting "x").data = w ++ ['\n'] ∧ w.getLastD ' ' ≠ '\n') ∧
        cleanupCodeFormatting "" = "") :=
  ⟨by decide, cleanup_trailing_newline "x" (by decide)⟩

/-! ## `format_model_for_cris` (`model_utils.py`; the method of the same name
in `backend/services/model_id_service.py` implements the identical logic,
with the detected region additionally cached on the service object).
The boto3 session lookup in `get_regional_prefix` is modelled by the
`detected` argument: the region name the environment would report, `none`
when the session has no region (an exception during detection makes the
source use `"us-east-1"`, which is a particular value of `detected`). -/

/-- `get_regional_prefix`: map an AWS region name to a CRIS prefix. -/
def getRegionalPrefixOf (detected : Option String) (region : Option String) : String :=
  let r := match region with
    | some r => some r
    | none => detected
  match r with
  | none => "us."
  | some s =>
    if s = "" then "us."
    else if pyStartswith s "us-" then "us."
    else if pyStartswith s "eu-" then "eu."
    else if pyStartswith s "ap-" then "apac."
    else if pyStartswith s "ca-" then "us."
    else if pyStartswith s "sa-" then "us."
    else "us."

/-- `model_id.startswith(('us.', 'eu.', 'apac.'))`. -/
def hasCrisRegionMark (modelId : String) : Bool :=
  pyStartswith modelId "us." || pyStartswith modelId "eu." || pyStartswith modelId "apac."

/-- `format_model_for_cris`: apply a CRIS regional prefix to a model id
unless it already carries one. -/
def formatModelForCris (detected : Option String) (region : Option String)
    (modelId : String) : String :=
  if modelId = "" then modelId
  else if hasCrisRegionMark modelId then modelId
  else getRegionalPrefixOf detected region ++ modelId

theorem getRegionalPrefixOf_cases (detected region : Option String) :
    getRegionalPrefixOf detected region = "us." ∨
      getRegionalPrefixOf detected region = "eu." ∨
      getRegionalPrefixOf detected region = "apac." := by
  unfold getRegionalPrefixOf
  rcases region with _ | r
  · rcases detected with _ | d
    · simp
    · simp only
      split_ifs <;> simp
  · simp only
    split_ifs <;> simp

theorem pyStartswith_append (p s : String) : pyStartswith (p ++ s) p = true := by
  simp only [pyStartswith]
  have : (p ++ s).data = p.data ++ s.data := String.data_append p s
  rw [this]
  exact List.isPrefixOf_iff_prefix.mpr (List.prefix_append _ _)

theorem hasCrisRegionMark_of_prefixed (detected region : Option String) (m : String) :
    hasCrisRegionMark (getRegionalPrefixOf detected region ++ m) = true := by
  rcases getRegionalPrefixOf_cases detected region with h | h | h <;>
    simp [hasCrisRegionMark, h, pyStartswith_append]

/-- C6 helper: a regional prefix makes the result non-empty. -/
theorem prefixed_ne_empty (detected region : Option String) (m : String) :
    getRegionalPrefixOf detected region ++ m ≠ "" := by
  intro h
  have hd := congrArg String.data h
  rw [String.data_append] at hd
  rcases getRegionalPrefixOf_cases detected region with h' | h' | h' <;>
    rw [h'] at hd <;> simp at hd

/-- C6: `format_model_for_cris` is the identity on every model id that
already starts with a recognized regional prefix (`us.`, `eu.`, `apac.`); on
every other non-empty id it prepends exactly one regional prefix (the result
is one recognized prefix glued onto the unprefixed original); and it is
idempotent, even across differing region environments. -/
theorem format_model_for_cris_contract (detected region detected2 region2 : Option String)
    (m : String) :
    (hasCrisRegionMark m = true → formatModelForCris detected region m = m) ∧
      (m ≠ "" → hasCrisRegionMark m = false →
        formatModelForCris detected region m = getRegionalPrefixOf detected region ++ m ∧
          (getRegionalPrefixOf detected region = "us." ∨
            getRegionalPrefixOf detected region = "eu." ∨
            getRegionalPrefixOf detected region = "apac.")) ∧
      formatModelForCris detected2 region2 (formatModelForCris detected region m) =
        formatModelForCris detected region m := by
  refine ⟨?_, ?_, ?_⟩
  · intro h
    by_cases hm : m = ""
    · simp [formatModelForCris, hm]
    · simp [formatModelForCris, hm, h]
  · intro hm h
    exact ⟨by simp [formatModelForCris, hm, h], getRegionalPrefixOf_cases detected region⟩
  · by_cases hm : m = ""
    · simp [formatModelForCris, hm]
    · by_cases h : hasCrisRegionMark m
      · simp [formatModelForCris, hm, h]
      · rw [show formatModelForCris detected region m =
            getRegionalPrefixOf detected region ++ m by
          simp [formatModelForCris, hm, h]]
        rw [formatModelForCris, if_neg (prefixed_ne_empty detected region m),
          if_pos (hasCrisRegionMark_of_prefixed detected region m)]

theorem format_model_for_cris_contract_witness :
    hasCrisRegionMark "anthropic.claude-3-5-sonnet-20241022-v2:0" = false ∧
      ("anthropic.claude-3-5-sonnet-20241022-v2:0" : String) ≠ "" ∧
      formatModelForCris none (some "eu-west-1") "anthropic.claude-3-5-sonnet-20241022-v2:0" =
        getRegionalPrefixOf none (some "eu-west-1") ++
          "anthropic.claude-3-5-sonnet-20241022-v2:0" ∧
      hasCrisRegionMark "us.anthropic.claude-3-5-sonnet-20241022-v2:0" = true ∧
      formatModelForCris none none "us.anthropic.claude-3-5-sonnet-20241022-v2:0" =
        "us.anthropic.claude-3-5-sonnet-20241022-v2:0" := by
  refine ⟨by decide, by decide, ?_, by decide, ?_⟩
  · exact ((format_model_for_cris_contract none (some "eu-west-1") none none
      "anthropic.claude-3-5-sonnet-20241022-v2:0").2.1 (by decide) (by decide)).1
  · exact (format_model_for_cris_contract none none none none
      "us.anthropic.claude-3-5-sonnet-20241022-v2:0").1 (by decide)

/-! ## `AgentService._extract_response_text_properly`
(`backend/services/agent_service.py`).  The Python value `result.message` is
dynamically typed; its shapes relevant to the source's branches are modelled
by the inductive types below.  `RBlock.battr` is a non-dict object exposing a
`.text` attribute (only inspected in the object-content branch, exactly as in
the source, where the dict branch tests `isinstance(block, dict)` /
`isinstance(block, str)` only). -/

/-- Python `sep.join(parts)`. -/
def pyJoin (sep : String) : List String → String
  | [] => ""
  | [x] => x
  | x :: r => x ++ sep ++ pyJoin sep r

/-- One entry of a `content` list. -/
inductive RBlock where
  /-- a dict block; `some t` when it has a `text` key -/
  | bdict (text : Option String)
  /-- a plain string block -/
  | bstr (s : String)
  /-- an object exposing a `.text` attribute -/
  | battr (text : String)
  /-- any other value -/
  | bother
deriving DecidableEq, Repr

/-- The value found under `content`. -/
inductive RContent where
  | clist (blocks : List RBlock)
  | cstr (s : String)
  | cother
deriving DecidableEq, Repr

/-- The shape of `result.message`. -/
inductive RMessage where
  /-- a plain string message -/
  | mstr (s : String)
  /-- a dict, with optional `content` and `text` keys -/
  | mdict (content : Option RContent) (text : Option String)
  /-- a non-dict object, with optional `.content` and `.text` attributes -/
  | mobj (content : Option RContent) (text : Option String)
  /-- any other value -/
  | mother
deriving DecidableEq, Repr

/-- Model of Python `str(...)` on a message value.  The source only reaches
`str` on its fallback branches; the exact rendering of non-string values is
unspecified here and modelled by a fixed tag. -/
def pyStrOfMessage : RMessage → String
  | .mstr s => s
  | _ => "<object repr>"

/-- Model of Python `str(...)` on a content value (fallback branch only). -/
def pyStrOfContent : RContent → String
  | .cstr s => s
  | _ => "<content repr>"

/-- Collect `text_parts` from a content list inside a dict message:
`isinstance(block, dict) and 'text' in block` first, then
`isinstance(block, str)`; other blocks are skipped. -/
def dictTextParts : List RBlock → List String
  | [] => []
  | .bdict (some t) :: r => t :: dictTextParts r
  | .bstr s :: r => s :: dictTextParts r
  | _ :: r => dictTextParts r

/-- Collect `text_parts` from a content list behind a `.content` attribute:
`hasattr(block, 'text')` first, then dict-with-text, then plain string. -/
def objTextParts : List RBlock → List String
  | [] => []
  | .battr t :: r => t :: objTextParts r
  | .bdict (some t) :: r => t :: objTextParts r
  | .bstr s :: r => s :: objTextParts r
  | _ :: r => objTextParts r

/-- `AgentService._extract_response_text_properly`, applied to the
`result.message` value (the wrapper returns `str(result)` when `result` has
no `message` attribute; that trivial branch is not modelled). -/
def extractResponseTextProperly (message : RMessage) : String :=
  match message with
  | .mstr s => s
  | .mdict content text =>
    match content with
    | some (.clist blocks) =>
      if blocks.length > 0 then
        let parts := dictTextParts blocks
        if parts.length > 0 then pyJoin "\n" parts
        else pyStrOfMessage message
      else match text with
        | some t => t
        | none => pyStrOfMessage message
    | some (.cstr s) => s
    | some .cother =>
      match text with
      | some t => t
      | none => pyStrOfMessage message
    | none =>
      match text with
      | some t => t
      | none => pyStrOfMessage message
  | .mobj content text =>
    match content with
    | some (.clist blocks) =>
      if blocks.length > 0 then
        let parts := objTextParts blocks
        if parts.length > 0 then pyJoin "\n" parts
        else pyStrOfContent (.clist blocks)
      else match text with
        | some t => t
        | none => pyStrOfMessage message
    | some (.cstr s) => s
    | some .cother =>
      match text with
      | some t => t
      | none => pyStrOfMessage message
    | none =>
      match text with
      | some t => t
      | none => pyStrOfMessage message
  | .mother => pyStrOfMessage message

theorem dictTextParts_all_text (xs : List String) :
    dictTextParts (xs.map (fun x => RBlock.bdict (some x))) = xs := by
  induction xs with
  | nil => rfl
  | cons x xs ih => simp [dictTextParts, ih]

/-- C3: a dict response whose `content` is a list of `{text: ...}` blocks is
normalized to the block texts joined with a single newline — in particular a
single block `{content: [{text: X}]}` yields exactly `X`, with no added
escaping — and a plain string message is returned unchanged. -/
theorem extract_response_text_contract (xs : List String) (x s : String)
    (hxs : xs ≠ []) :
    extractResponseTextProperly (.mdict (some (.clist
        (xs.map (fun x => RBlock.bdict (some x))))) none) =
      pyJoin "\n" xs ∧
    extractResponseTextProperly (.mdict (some (.clist [RBlock.bdict (some x)])) none) = x ∧
    extractResponseTextProperly (.mstr s) = s := by
  refine ⟨?_, ?_, rfl⟩
  · rw [extractResponseTextProperly]
    rw [if_pos (by simpa using List.length_pos.mpr (by simpa using hxs))]
    rw [dictTextParts_all_text]
    rw [if_pos (by simpa using List.length_pos.mpr hxs)]
  · rw [extractResponseTextProperly]
    simp [dictTextParts, pyJoin]

theorem extract_response_text_contract_witness :
    (["analysis", "code"] : List String) ≠ [] ∧
      extractResponseTextProperly (.mdict (some (.clist
          ((["analysis", "code"] : List String).map (fun x => RBlock.bdict (some x))))) none) =
        pyJoin "\n" ["analysis", "code"] ∧
      extractResponseTextProperly (.mdict (some (.clist [RBlock.bdict (some "X")])) none) = "X" ∧
      extractResponseTextProperly (.mstr "plain") = "plain" :=
  ⟨by decide, extract_response_text_contract ["analysis", "code"] "X" "plain" (by decide)⟩

/-! ## `S3CodeStorageService` (`backend/services/s3_code_storage_service.py`).
The S3 backend is modelled by an association list of keys to contents plus an
oracle for the outcomes of the AWS calls; Python exceptions raised inside the
`try` blocks are modelled with `Except`, and the `except` clauses of the
source translate them to the error dictionaries below. -/

/-- A Python exception, to the granularity the handlers distinguish. -/
inductive PyExn where
  | valueError (msg : String)
  | clientError (code : String)
  | otherExn
deriving DecidableEq, Repr

/-- The S3 bucket contents: newest binding first. -/
def S3State := List (String × String)

/-- Look up a key in the bucket. -/
def s3Lookup (st : S3State) (key : String) : Option String :=
  match st with
  | [] => none
  | (k, v) :: r => if k = key then some v else s3Lookup r key

/-- Outcome of an `s3_client.get_object` call. -/
inductive S3GetResp where
  /-- the object exists and holds this (UTF-8 decoded) body -/
  | ok (content : String)
  /-- a `ClientError` with the given error code -/
  | clientError (code : String)
  /-- any other exception -/
  | exn
deriving DecidableEq, Repr

/-- The `get_object` behaviour of a bucket state: a missing key raises
`ClientError` with code `NoSuchKey`. -/
def stateBackend (st : S3State) : String → S3GetResp :=
  fun key =>
    match s3Lookup st key with
    | some c => .ok c
    | none => .clientError "NoSuchKey"

/-- The valid `code_type` values. -/
def validCodeTypes : List String := ["pure_strands", "agentcore_ready", "requirements"]

/-- `safe_session_id = ''.join(c for c in session_id if c.isalnum() or c in '-_')`
(ASCII scope for `isalnum`). -/
def sanitizeSessionId (s : String) : String :=
  String.mk (s.data.filter (fun c => c.isAlphanum || c = '-' || c = '_'))

/-- Result dictionary of `get_code_file`, restricted to the keys the claims
touch (`last_modified` carries no content in this model). -/
structure GetCodeResult where
  status : String
  codeContent : Option String
  s3Uri : Option String
  error : Option String
deriving DecidableEq, Repr

/-- The `try` block of `get_code_file`: validation errors raise `ValueError`,
the backend call may raise. -/
def getCodeFileCore (bucket : String) (backend : String → S3GetResp)
    (sessionId codeType : String) : Except PyExn GetCodeResult :=
  if ¬ validCodeTypes.contains codeType then
    .error (.valueError "Invalid code_type")
  else
    let safeId := sanitizeSessionId sessionId
    if safeId = "" then .error (.valueError "session_id contains no valid characters")
    else
      let ext := if codeType = "requirements" then ".txt" else ".py"
      let key := "temp-code/" ++ safeId ++ "/" ++ codeType ++ ext
      match backend key with
      | .ok content =>
        .ok { status := "success", codeContent := some content,
              s3Uri := some ("s3://" ++ bucket ++ "/" ++ key), error := none }
      | .clientError code => .error (.clientError code)
      | .exn => .error .otherExn

/-- `S3CodeStorageService.get_code_file` with its `except` clauses: a
`ClientError` with code `NoSuchKey` becomes the `not_found` outcome, any
other `ClientError` the AWS error outcome, and any other exception the
generic error outcome; the function never re-raises. -/
def getCodeFile (bucket : String) (backend : String → S3GetResp)
    (sessionId codeType : String) : GetCodeResult :=
  match getCodeFileCore bucket backend sessionId codeType with
  | .ok r => r
  | .error (.clientError code) =>
    if code = "NoSuchKey" then
      { status := "not_found", codeContent := none, s3Uri := none,
        error := some "Code file not found" }
    else
      { status := "error", codeContent := none, s3Uri := none,
        error := some "AWS S3 error" }
  | .error _ =>
    { status := "error", codeContent := none, s3Uri := none,
      error := some "Unexpected error" }

/-- Result dictionary of `store_code_file`, restricted to the keys the
claims touch. -/
structure StoreCodeResult where
  status : String
  s3Uri : Option String
  key : Option String
  contentLength : Option Nat
  error : Option String
deriving DecidableEq, Repr

/-- The `try` block of `store_code_file`; `putOutcome` is the oracle for the
`put_object` call (`none` = the call succeeds). -/
def storeCodeFileCore (bucket : String) (putOutcome : Option PyExn) (st : S3State)
    (sessionId codeContent codeType fileExtension : String) :
    Except PyExn (S3State × StoreCodeResult) :=
  if ¬ validCodeTypes.contains codeType then
    .error (.valueError "Invalid code_type")
  else if sessionId = "" ∨ pyStripS sessionId = "" then
    .error (.valueError "session_id cannot be empty")
  else if codeContent = "" ∨ pyStripS codeContent = "" then
    .error (.valueError "code_content cannot be empty")
  else
    let safeId := sanitizeSessionId sessionId
    if safeId = "" then .error (.valueError "session_id contains no valid characters")
    else
      let key := "temp-code/" ++ safeId ++ "/" ++ codeType ++ fileExtension
      match putOutcome with
      | some e => .error e
      | none =>
        .ok ((key, codeContent) :: st,
          { status := "success", s3Uri := some ("s3://" ++ bucket ++ "/" ++ key),
            key := some key, contentLength := some codeContent.length, error := none })

/-- `S3CodeStorageService.store_code_file` with its `except` clauses; a
failure leaves the bucket unchanged. -/
def storeCodeFile (bucket : String) (putOutcome : Option PyExn) (st : S3State)
    (sessionId codeContent codeType fileExtension : String) :
    S3State × StoreCodeResult :=
  match storeCodeFileCore bucket putOutcome st sessionId codeContent codeType fileExtension with
  | .ok r => r
  | .error (.valueError _) =>
    (st, { status := "error", s3Uri := none, key := none, contentLength := none,
           error := some "Validation error" })
  | .error (.clientError _) =>
    (st, { status := "error", s3Uri := none, key := none, contentLength := none,
           error := some "AWS S3 error" })
  | .error .otherExn =>
    (st, { status := "error", s3Uri := none, key := none, contentLength := none,
           error := some "Unexpected error" })

/-- C8: `get_code_file` always returns one of the three result statuses
(it never raises, even for an unrecognized slot, whose `ValueError` is caught
by the generic handler); a missing key surfaces as the distinct `not_found`
status, not as the backend-error status. -/
theorem get_code_file_contract (bucket : String) (backend : String → S3GetResp)
    (sessionId codeType : String) :
    ((getCodeFile bucket backend sessionId codeType).status = "success" ∨
      (getCodeFile bucket backend sessionId codeType).status = "not_found" ∨
      (getCodeFile bucket backend sessionId codeType).status = "error") ∧
    (validCodeTypes.contains codeType = true →
      sanitizeSessionId sessionId ≠ "" →
      backend ("temp-code/" ++ sanitizeSessionId sessionId ++ "/" ++ codeType ++
          (if codeType = "requirements" then ".txt" else ".py")) =
        .clientError "NoSuchKey" →
      (getCodeFile bucket backend sessionId codeType).status = "not_found" ∧
        (getCodeFile bucket backend sessionId codeType).status ≠ "error") ∧
    (validCodeTypes.contains codeType = false →
      (getCodeFile bucket backend sessionId codeType).status = "error") := by
  refine ⟨?_, ?_, ?_⟩
  · by_cases h1 : validCodeTypes.contains codeType
    · by_cases h2 : sanitizeSessionId sessionId = ""
      · simp only [getCodeFile, getCodeFileCore, h1, Bool.not_true, Bool.false_eq_true,
          if_false, if_pos h2]
        simp
      · simp only [getCodeFile, getCodeFileCore, h1, Bool.not_true, Bool.false_eq_true,
          if_false, if_neg h2]
        cases backend ("temp-code/" ++ sanitizeSessionId sessionId ++ "/" ++ codeType ++
            (if codeType = "requirements" then ".txt" else ".py")) with
        | ok c => simp
        | clientError code =>
          by_cases hc : code = "NoSuchKey" <;> simp [hc]
        | exn => simp
    · simp only [getCodeFile, getCodeFileCore]
      rw [if_pos (by simpa using h1)]
      simp
  · intro h1 h2 hb
    simp only [getCodeFile, getCodeFileCore, h1, Bool.not_true, Bool.false_eq_true,
      if_false, if_neg h2, hb]
    simp
  · intro h1
    simp only [getCodeFile, getCodeFileCore]
    rw [if_pos (by simpa using h1)]

theorem get_code_file_contract_witness :
    (getCodeFile "bucket" (fun _ => .clientError "NoSuchKey") "abc123" "pure_strands").status =
        "not_found" ∧
      (getCodeFile "bucket" (fun _ => .clientError "NoSuchKey") "abc123" "pure_strands").status ≠
        "error" ∧
      (getCodeFile "bucket" (fun _ => .clientError "NoSuchKey") "abc123" "no_such_slot").status =
        "error" := by
  refine ⟨?_, ?_, ?_⟩
  · exact ((get_code_file_contract "bucket" (fun _ => .clientError "NoSuchKey")
      "abc123" "pure_strands").2.1 (by decide) (by decide) rfl).1
  · exact ((get_code_file_contract "bucket" (fun _ => .clientError "NoSuchKey")
      "abc123" "pure_strands").2.1 (by decide) (by decide) rfl).2
  · exact (get_code_file_contract "bucket" (fun _ => .clientError "NoSuchKey")
      "abc123" "no_such_slot").2.2 (by decide)

/-- C9 counterexample: `store_code_file` stores the manifest slot under the
caller-supplied extension — with the source's default `'.py'` the store
succeeds at `temp-code/sess1/requirements.py` (not `.txt` as the claim
requires), and the subsequent `get_code_file`, which probes `.txt` for the
manifest slot, reports `not_found` instead of the stored content. -/
theorem store_requirements_default_ext_counterexample :
    (storeCodeFile "b" none [] "sess1" "numpy>=1.0" "requirements" ".py").2.status =
        "success" ∧
      (storeCodeFile "b" none [] "sess1" "numpy>=1.0" "requirements" ".py").2.key =
        some "temp-code/sess1/requirements.py" ∧
      getCodeFile "b"
          (stateBackend (storeCodeFile "b" none [] "sess1" "numpy>=1.0" "requirements" ".py").1)
          "sess1" "requirements" =
        { status := "not_found", codeContent := none, s3Uri := none,
          error := some "Code file not found" } := by
  refine ⟨?_, ?_, ?_⟩ <;> decide

/-- C9 (amended): a successful store uses the path
`temp-code/{sanitized}/{slot}{ext}` where `ext` is the caller-supplied
extension; the sanitized id holds only alphanumerics, hyphens and
underscores; an unrecognized slot, an empty/whitespace session id or empty/
whitespace content is rejected with the error outcome without touching the
bucket; and when the store used the extension `get_code_file` probes
(`.py` for the code slots, `.txt` for the manifest slot), a get after the
store returns the stored content. -/
theorem store_get_roundtrip (bucket : String) (st : S3State)
    (sessionId content slot ext : String)
    (hslot : validCodeTypes.contains slot = true)
    (hsid : pyStripS sessionId ≠ "")
    (hcontent : pyStripS content ≠ "")
    (hsan : sanitizeSessionId sessionId ≠ "")
    (hext : ext = if slot = "requirements" then ".txt" else ".py") :
    ((storeCodeFile bucket none st sessionId content slot ext).2.status = "success" ∧
      (storeCodeFile bucket none st sessionId content slot ext).2.key =
        some ("temp-code/" ++ sanitizeSessionId sessionId ++ "/" ++ slot ++ ext) ∧
      (sanitizeSessionId sessionId).data.all
        (fun c => c.isAlphanum || c = '-' || c = '_') = true ∧
      (getCodeFile bucket
          (stateBackend (storeCodeFile bucket none st sessionId content slot ext).1)
          sessionId slot).status = "success" ∧
      (getCodeFile bucket
          (stateBackend (storeCodeFile bucket none st sessionId content slot ext).1)
          sessionId slot).codeContent = some content) ∧
    (∀ slot2, validCodeTypes.contains slot2 = false →
      storeCodeFile bucket none st sessionId content slot2 ext =
        (st, { status := "error", s3Uri := none, key := none, contentLength := none,
               error := some "Validation error" })) ∧
    (∀ sid2, pyStripS sid2 = "" →
      storeCodeFile bucket none st sid2 content slot ext =
        (st, { status := "error", s3Uri := none, key := none, contentLength := none,
               error := some "Validation error" })) ∧
    (∀ content2, pyStripS content2 = "" →
      storeCodeFile bucket none st sessionId content2 slot ext =
        (st, { status := "error", s3Uri := none, key := none, contentLength := none,
               error := some "Validation error" })) := by
  have hsidne : sessionId ≠ "" := by
    intro h; exact hsid (by rw [h]; rfl)
  have hcontentne : content ≠ "" := by
    intro h; exact hcontent (by rw [h]; rfl)
  have hstore : storeCodeFile bucket none st sessionId content slot ext =
      (("temp-code/" ++ sanitizeSessionId sessionId ++ "/" ++ slot ++ ext, content) :: st,
        { status := "success",
          s3Uri := some ("s3://" ++ bucket ++ "/" ++
            ("temp-code/" ++ sanitizeSessionId sessionId ++ "/" ++ slot ++ ext)),
          key := some ("temp-code/" ++ sanitizeSessionId sessionId ++ "/" ++ slot ++ ext),
          contentLength := some content.length, error := none }) := by
    have hslotm : slot ∈ validCodeTypes := by simpa using hslot
    simp [storeCodeFile, storeCodeFileCore, hslotm, hsid, hcontent, hsan, hsidne, hcontentne]
  refine ⟨⟨?_, ?_, ?_, ?_, ?_⟩, ?_, ?_, ?_⟩
  · rw [hstore]
  · rw [hstore]
  · rw [List.all_eq_true]
    intro c hc
    have hc' : c ∈ List.filter (fun c => c.isAlphanum || c = '-' || c = '_')
        sessionId.data := hc
    simpa using List.of_mem_filter hc'
  · rw [hstore]
    have hslotm : slot ∈ validCodeTypes := by simpa using hslot
    simp [getCodeFile, getCodeFileCore, hslotm, hsan, stateBackend, s3Lookup, ← hext]
  · rw [hstore]
    have hslotm : slot ∈ validCodeTypes := by simpa using hslot
    simp [getCodeFile, getCodeFileCore, hslotm, hsan, stateBackend, s3Lookup, ← hext]
  · intro slot2 h2
    have h2m : slot2 ∉ validCodeTypes := by simpa using h2
    simp [storeCodeFile, storeCodeFileCore, h2m]
  · intro sid2 h2
    have hslotm : slot ∈ validCodeTypes := by simpa using hslot
    simp [storeCodeFile, storeCodeFileCore, hslotm, h2]
  · intro content2 h2
    have hslotm : slot ∈ validCodeTypes := by simpa using hslot
    simp [storeCodeFile, storeCodeFileCore, hslotm, hsid, hsidne, h2]

theorem store_get_roundtrip_witness :
    (storeCodeFile "b" none [] "sess-42" "print(1)" "pure_strands" ".py").2.status =
        "success" ∧
      (getCodeFile "b"
          (stateBackend (storeCodeFile "b" none [] "sess-42" "print(1)" "pure_strands" ".py").1)
          "sess-42" "pure_strands").codeContent = some "print(1)" := by
  refine ⟨?_, ?_⟩
  · exact ((store_get_roundtrip "b" [] "sess-42" "print(1)" "pure_strands" ".py"
      (by decide) (by decide) (by decide) (by decide) (by decide)).1).1
  · exact ((store_get_roundtrip "b" [] "sess-42" "print(1)" "pure_strands" ".py"
      (by decide) (by decide) (by decide) (by decide) (by decide)).1).2.2.2.2

/-! ## Layered code extraction (`AgentService._extract_code_with_fallbacks`
and its four methods, `backend/services/agent_service.py`).  Each regex of
the source is implemented directly as a scanner with Python `re.findall`
semantics: left-to-right, non-overlapping, leftmost match, non-greedy
captures taking the shortest extension, lookahead `(?=\n\n|\Z)` not
consuming. -/

/-- Case-insensitive literal match at the head of the input
(re.IGNORECASE); returns the remainder on success. -/
def matchCI : List Char → List Char → Option (List Char)
  | [], s => some s
  | _ :: _, [] => none
  | p :: ps, c :: t => if p.toLower = c.toLower then matchCI ps t else none

/-- The regex fragment `\s*\n` at the head of the input: consume whitespace
up to and including the last newline reachable through whitespace only
(greedy `\s*` with backtracking into the final `\n`). -/
def wsThroughNL : List Char → Option (List Char)
  | '\n' :: t =>
    some (match wsThroughNL t with
      | some r => r
      | none => t)
  | c :: t => if pyIsSpace c then wsThroughNL t else none
  | [] => none

/-- Split the input at the first occurrence of `pat`:
`some (before, after-the-pattern)`, or `none` when absent. -/
def findSub (pat : List Char) : List Char → Option (List Char × List Char)
  | [] => if pat.isPrefixOf ([] : List Char) then some ([], []) else none
  | c :: t =>
    if pat.isPrefixOf (c :: t) then some ([], (c :: t).drop pat.length)
    else (findSub pat t).map (fun p => (c :: p.1, p.2))

/-- One attempted match of `r'```python\s*\n(.*?)\n```'` (DOTALL,
IGNORECASE) at the current position: `some (capture, rest-after-match)`. -/
def pythonBlockAt (s : List Char) : Option (List Char × List Char) :=
  match matchCI "```python".data s with
  | none => none
  | some r1 =>
    match wsThroughNL r1 with
    | none => none
    | some r2 => findSub "\n```".data r2

/-- One attempted match of `r'```\s*\n(.*?)\n```'` (DOTALL) at the current
position. -/
def genericBlockAt (s : List Char) : Option (List Char × List Char) :=
  if "```".data.isPrefixOf s then
    match wsThroughNL (s.drop 3) with
    | none => none
    | some r2 => findSub "\n```".data r2
  else none

/-- `re.findall`: scan the input left to right with the given single-match
attempt, collecting non-overlapping captures.  `fuel` bounds the recursion;
every step advances by at least one character, so `s.length` suffices. -/
def scanBlocks (blockAt : List Char → Option (List Char × List Char)) :
    Nat → List Char → List (List Char)
  | 0, _ => []
  | _ + 1, [] => []
  | fuel + 1, c :: t =>
    match blockAt (c :: t) with
    | some (cap, rest) => cap :: scanBlocks blockAt fuel rest
    | none => scanBlocks blockAt fuel t

/-- `AgentService._extract_python_blocks`: last `python`-tagged fenced
block, stripped; `none` models the raised `ValueError`. -/
def extractPythonBlocks (response : String) : Option String :=
  match (scanBlocks pythonBlockAt response.data.length response.data).getLast? with
  | some code => some (String.mk (pyStrip code))
  | none => none

/-- `AgentService._looks_like_python`. -/
def looksLikePython (code : List Char) : Bool :=
  hasSub "from strands".data code || hasSub "import strands".data code ||
    hasSub "Agent(".data code || hasSub "def ".data code ||
    hasSub "class ".data code || hasSub "if __name__".data code

/-- `AgentService._extract_generic_blocks`: generic fenced blocks filtered
in reverse for Python-looking content, stripped. -/
def extractGenericBlocks (response : String) : Option String :=
  match (scanBlocks genericBlockAt response.data.length response.data).reverse.find?
      looksLikePython with
  | some m => some (String.mk (pyStrip m))
  | none => none

/-- The regex fragment `.*?(?=\n\n|\Z)`: non-greedy capture up to (not
including) the first `\n\n`, or the whole input when absent. -/
def stopAtDoubleNL : List Char → List Char × List Char
  | [] => ([], [])
  | c :: t =>
    if "\n\n".data.isPrefixOf (c :: t) then ([], c :: t)
    else
      let p := stopAtDoubleNL t
      (c :: p.1, p.2)

/-- One attempted match of `r'(from strands.*?(?=\n\n|\Z))'` (DOTALL). -/
def importBlockAt (s : List Char) : Option (List Char × List Char) :=
  if "from strands".data.isPrefixOf s then
    let p := stopAtDoubleNL (s.drop 12)
    some ("from strands".data ++ p.1, p.2)
  else none

/-- `AgentService._extract_import_based`: last import-anchored slice,
stripped. -/
def extractImportBased (response : String) : Option String :=
  match (scanBlocks importBlockAt response.data.length response.data).getLast? with
  | some m => some (String.mk (pyStrip m))
  | none => none

/-- One attempted match of `r'(from strands import.*?(?=\n\n|\Z))'`. -/
def fromImportBlockAt (s : List Char) : Option (List Char × List Char) :=
  if "from strands import".data.isPrefixOf s then
    let p := stopAtDoubleNL (s.drop 19)
    some ("from strands import".data ++ p.1, p.2)
  else none

/-- One attempted match of `r'(import strands.*?(?=\n\n|\Z))'`. -/
def importStrandsBlockAt (s : List Char) : Option (List Char × List Char) :=
  if "import strands".data.isPrefixOf s then
    let p := stopAtDoubleNL (s.drop 14)
    some ("import strands".data ++ p.1, p.2)
  else none

/-- One attempted match of `r'(Agent\(.*?\).*?(?=\n\n|\Z))'`: literal
`Agent(`, non-greedy up to the first `)`, then non-greedy up to `\n\n` or
end. -/
def agentCallBlockAt (s : List Char) : Option (List Char × List Char) :=
  if "Agent(".data.isPrefixOf s then
    match findSub [')'] (s.drop 6) with
    | none => none
    | some (body, after) =>
      let p := stopAtDoubleNL after
      some ("Agent(".data ++ body ++ [')'] ++ p.1, p.2)
  else none

/-- `AgentService._extract_pattern_matching`: the three patterns in source
order, first with any match wins, last match of that pattern, stripped. -/
def extractPatternMatching (response : String) : Option String :=
  match (scanBlocks fromImportBlockAt response.data.length response.data).getLast? with
  | some m => some (String.mk (pyStrip m))
  | none =>
    match (scanBlocks importStrandsBlockAt response.data.length response.data).getLast? with
    | some m => some (String.mk (pyStrip m))
    | none =>
      match (scanBlocks agentCallBlockAt response.data.length response.data).getLast? with
      | some m => some (String.mk (pyStrip m))
      | none => none

/-- `AgentService._calculate_confidence`, in exact tenths (the source sums
floats 0.3/0.3/0.2/0.1/0.1 capped at 1.0; no claim depends on the float
rounding, so the model works in units of 0.1). -/
def calculateConfidence10 (code : String) : Nat :=
  min ((if hasSubS "from strands" code || hasSubS "import strands" code then 3 else 0) +
      (if hasSubS "Agent(" code then 3 else 0) +
      (if hasSubS "def " code || hasSubS "class " code then 2 else 0) +
      (if hasSubS "#" code then 1 else 0) +
      (if hasSubS "import" code then 1 else 0)) 10

/-- The result dictionary of `_extract_code_with_fallbacks`, with the keys
of both the success and the failure shapes. -/
structure ExtractionOutcome where
  success : Bool
  code : Option String
  method : Option String
  confidence10 : Option Nat
  error : Option String
  rawResponse : Option String
deriving DecidableEq, Repr

/-- The ordered extraction-method table of the source. -/
def extractionMethods : List (String × (String → Option String)) :=
  [("python_blocks", extractPythonBlocks),
    ("generic_blocks", extractGenericBlocks),
    ("import_based", extractImportBased),
    ("pattern_matching", extractPatternMatching)]

/-- The source's method loop: first method whose result is truthy and longer
than 50 characters once stripped wins; a raised error tries the next. -/
def tryMethods : List (String × (String → Option String)) → String → Option (String × String)
  | [], _ => none
  | (name, m) :: rest, response =>
    match m response with
    | some code =>
      if code ≠ "" ∧ (pyStripS code).length > 50 then some (name, code)
      else tryMethods rest response
    | none => tryMethods rest response

/-- `AgentService._extract_code_with_fallbacks`. -/
def extractCodeWithFallbacks (response : String) : ExtractionOutcome :=
  match tryMethods extractionMethods response with
  | some (name, code) =>
    { success := true, code := some code, method := some name,
      confidence10 := some (calculateConfidence10 code), error := none,
      rawResponse := none }
  | none =>
    { success := false, code := none, method := none, confidence10 := none,
      error := some "All code extraction methods failed",
      rawResponse := some (pyTake 500 response) }

/-- C2 counterexample: a fenced block whose body contains the literal
two-character sequence backslash-n is extracted successfully — the outcome
carries `success = true` even though the code holds escape-sequence
artifacts (the source only logs the artifact at error severity and returns
the result unchanged). -/
theorem extraction_escape_artifact_counterexample :
    (extractCodeWithFallbacks
        "```python\nfrom strands import Agent\\nagent = Agent()\\nprint(agent)  # demo\n```").success
      = true ∧
    (extractCodeWithFallbacks
        "```python\nfrom strands import Agent\\nagent = Agent()\\nprint(agent)  # demo\n```").code
      = some "from strands import Agent\\nagent = Agent()\\nprint(agent)  # demo" ∧
    hasSubS "\\n" "from strands import Agent\\nagent = Agent()\\nprint(agent)  # demo" = true := by
  refine ⟨?_, ?_, ?_⟩ <;> decide

theorem tryMethods_mem :
    ∀ (l : List (String × (String → Option String))) (r : String) (n c : String),
      tryMethods l r = some (n, c) → ∃ m, (n, m) ∈ l ∧ m r = some c := by
  intro l
  induction l with
  | nil => intro r n c h; simp [tryMethods] at h
  | cons p rest ih =>
    intro r n c h
    obtain ⟨name, m⟩ := p
    rw [tryMethods] at h
    cases hm : m r with
    | some code =>
      simp only [hm] at h
      by_cases hcond : code ≠ "" ∧ (pyStripS code).length > 50
      · rw [if_pos hcond] at h
        injection h with h'
        injection h' with h1 h2
        subst h1; subst h2
        exact ⟨m, List.mem_cons_self _ _, hm⟩
      · rw [if_neg hcond] at h
        obtain ⟨m', hmem, hm'⟩ := ih r n c h
        exact ⟨m', List.mem_cons_of_mem _ hmem, hm'⟩
    | none =>
      simp only [hm] at h
      obtain ⟨m', hmem, hm'⟩ := ih r n c h
      exact ⟨m', List.mem_cons_of_mem _ hmem, hm'⟩

/-- C2 (amended): the extraction pipeline never repairs escape-sequence
artifacts — whenever the outcome has `success = true`, the returned code is
exactly the output of one of the four extraction methods, unmodified (a
backslash-n artifact is logged at error severity but the result is still
returned with `success = true`, as the counterexample shows). -/
theorem extraction_never_repairs (r c : String)
    (h : (extractCodeWithFallbacks r).success = true)
    (hc : (extractCodeWithFallbacks r).code = some c) :
    extractPythonBlocks r = some c ∨ extractGenericBlocks r = some c ∨
      extractImportBased r = some c ∨ extractPatternMatching r = some c := by
  unfold extractCodeWithFallbacks at h hc
  cases htry : tryMethods extractionMethods r with
  | none => rw [htry] at h; simp at h
  | some p =>
    obtain ⟨n, code⟩ := p
    rw [htry] at hc
    simp only [Option.some.injEq] at hc
    obtain ⟨m, hmem, hm⟩ := tryMethods_mem _ r n code htry
    rw [hc] at hm
    simp only [extractionMethods, List.mem_cons, List.mem_singleton,
      Prod.mk.injEq, List.not_mem_nil, or_false] at hmem
    rcases hmem with ⟨-, h'⟩ | ⟨-, h'⟩ | ⟨-, h'⟩ | ⟨-, h'⟩ <;> rw [h'] at hm
    · exact Or.inl hm
    · exact Or.inr (Or.inl hm)
    · exact Or.inr (Or.inr (Or.inl hm))
    · exact Or.inr (Or.inr (Or.inr hm))

theorem extraction_never_repairs_witness :
    extractPythonBlocks
        "```python\nfrom strands import Agent\\nagent = Agent()\\nprint(agent)  # demo\n```" =
        some "from strands import Agent\\nagent = Agent()\\nprint(agent)  # demo" ∨
      extractGenericBlocks
        "```python\nfrom strands import Agent\\nagent = Agent()\\nprint(agent)  # demo\n```" =
        some "from strands import Agent\\nagent = Agent()\\nprint(agent)  # demo" ∨
      extractImportBased
        "```python\nfrom strands import Agent\\nagent = Agent()\\nprint(agent)  # demo\n```" =
        some "from strands import Agent\\nagent = Agent()\\nprint(agent)  # demo" ∨
      extractPatternMatching
        "```python\nfrom strands import Agent\\nagent = Agent()\\nprint(agent)  # demo\n```" =
        some "from strands import Agent\\nagent = Agent()\\nprint(agent)  # demo" :=
  extraction_never_repairs
    "```python\nfrom strands import Agent\\nagent = Agent()\\nprint(agent)  # demo\n```"
    "from strands import Agent\\nagent = Agent()\\nprint(agent)  # demo"
    (by decide) (by decide)

/-! ### Failure of all four extraction methods (C4) -/

theorem charOfNat_toNat_valid (n : Nat) (h : n.isValidChar) :
    (Char.ofNat n).toNat = n := by
  simp [Char.ofNat, h, Char.ofNatAux, Char.toNat, UInt32.toNat, BitVec.toNat_ofNatLt]

/-- Only the backtick lowers to a backtick (`re.IGNORECASE` cannot make any
other character match a backtick). -/
theorem toLower_eq_backtick {c : Char} (h : c.toLower = '`') : c = '`' := by
  unfold Char.toLower at h
  simp only [] at h
  by_cases hr : c.toNat ≥ 65 ∧ c.toNat ≤ 90
  · rw [if_pos hr] at h
    have hval : (c.toNat + 32).isValidChar := by
      left
      omega
    have hv := congrArg Char.toNat h
    rw [charOfNat_toNat_valid _ hval] at hv
    have h96 : ('`').toNat = 96 := by decide
    omega
  · rw [if_neg hr] at h
    exact h

theorem hasSub_tail_false {pat : List Char} {c : Char} {t : List Char}
    (h : hasSub pat (c :: t) = false) : hasSub pat t = false := by
  simp only [hasSub, Bool.or_eq_false_iff] at h
  exact h.2

theorem hasSub_isPrefixOf_false {pat s : List Char} (h : hasSub pat s = false) :
    pat.isPrefixOf s = false := by
  cases s with
  | nil => simpa [hasSub] using h
  | cons c t =>
    simp only [hasSub, Bool.or_eq_false_iff] at h
    exact h.1

theorem pythonBlockAt_none {s : List Char} (h : hasSub "```".data s = false) :
    pythonBlockAt s = none := by
  rw [pythonBlockAt]
  cases hm : matchCI "```python".data s with
  | none => rfl
  | some r =>
    exfalso
    match s, hm with
    | c1 :: s1, hm =>
      rw [show ("```python".data : List Char) = '`' :: "``python".data from rfl,
        matchCI] at hm
      split_ifs at hm with h1
      have hc1 : c1 = '`' := toLower_eq_backtick (by simpa using h1.symm)
      match s1, hm with
      | c2 :: s2, hm =>
        rw [show ("``python".data : List Char) = '`' :: "`python".data from rfl,
          matchCI] at hm
        split_ifs at hm with h2
        have hc2 : c2 = '`' := toLower_eq_backtick (by simpa using h2.symm)
        match s2, hm with
        | c3 :: s3, hm =>
          rw [show ("`python".data : List Char) = '`' :: "python".data from rfl,
            matchCI] at hm
          split_ifs at hm with h3
          have hc3 : c3 = '`' := toLower_eq_backtick (by simpa using h3.symm)
          subst hc1; subst hc2; subst hc3
          have : ("```".data : List Char).isPrefixOf ('`' :: '`' :: '`' :: s3) = true := by
            simp [List.isPrefixOf]
          rw [hasSub_isPrefixOf_false h] at this
          cases this

theorem genericBlockAt_none {s : List Char} (h : hasSub "```".data s = false) :
    genericBlockAt s = none := by
  rw [genericBlockAt, if_neg]
  intro hpre
  rw [hasSub_isPrefixOf_false h] at hpre
  cases hpre

theorem importBlockAt_none {s : List Char} (h : hasSub "from strands".data s = false) :
    importBlockAt s = none := by
  rw [importBlockAt, if_neg]
  intro hpre
  rw [hasSub_isPrefixOf_false h] at hpre
  cases hpre

theorem fromImportBlockAt_none {s : List Char} (h : hasSub "from strands".data s = false) :
    fromImportBlockAt s = none := by
  rw [fromImportBlockAt, if_neg]
  intro hpre
  have hshort : ("from strands".data : List Char).isPrefixOf s = true := by
    have h1 : ("from strands".data : List Char) <+: "from strands import".data := by decide
    have h2 : ("from strands import".data : List Char) <+: s :=
      List.isPrefixOf_iff_prefix.mp hpre
    exact List.isPrefixOf_iff_prefix.mpr (h1.trans h2)
  rw [hasSub_isPrefixOf_false h] at hshort
  cases hshort

theorem importStrandsBlockAt_none {s : List Char}
    (h : hasSub "import strands".data s = false) : importStrandsBlockAt s = none := by
  rw [importStrandsBlockAt, if_neg]
  intro hpre
  rw [hasSub_isPrefixOf_false h] at hpre
  cases hpre

theorem agentCallBlockAt_none {s : List Char} (h : hasSub "Agent(".data s = false) :
    agentCallBlockAt s = none := by
  rw [agentCallBlockAt, if_neg]
  intro hpre
  rw [hasSub_isPrefixOf_false h] at hpre
  cases hpre

theorem scanBlocks_nil (blockAt : List Char → Option (List Char × List Char))
    (P : List Char → Prop) (hP : ∀ s, P s → blockAt s = none)
    (htail : ∀ c t, P (c :: t) → P t) :
    ∀ (fuel : Nat) (s : List Char), P s → scanBlocks blockAt fuel s = [] := by
  intro fuel
  induction fuel with
  | zero => intro s _; rfl
  | succ fuel ih =>
    intro s hs
    cases s with
    | nil => rfl
    | cons c t =>
      rw [scanBlocks, hP _ hs]
      exact ih t (htail c t hs)

/-- C4 (amended): when the response has no fenced block and no import- or
pattern-anchored content, all four methods fail and the outcome is
`success = false` with the raw-response preview holding the first 500
characters of the input, capped at 500 and non-empty whenever the input is
non-empty (the claim's unconditional non-emptiness fails only for the empty
input, see the counterexample). -/
theorem extraction_failure_contract (r : String) (hne : r ≠ "")
    (h1 : hasSubS "```" r = false) (h2 : hasSubS "from strands" r = false)
    (h3 : hasSubS "import strands" r = false) (h4 : hasSubS "Agent(" r = false) :
    (extractCodeWithFallbacks r).success = false ∧
      (extractCodeWithFallbacks r).rawResponse = some (pyTake 500 r) ∧
      (extractCodeWithFallbacks r).error = some "All code extraction methods failed" ∧
      pyTake 500 r ≠ "" ∧ (pyTake 500 r).length ≤ 500 := by
  have hpy : extractPythonBlocks r = none := by
    rw [extractPythonBlocks, scanBlocks_nil pythonBlockAt _
      (fun s hs => pythonBlockAt_none hs) (fun c t ht => hasSub_tail_false ht) _ _ h1]
    rfl
  have hgen : extractGenericBlocks r = none := by
    rw [extractGenericBlocks, scanBlocks_nil genericBlockAt _
      (fun s hs => genericBlockAt_none hs) (fun c t ht => hasSub_tail_false ht) _ _ h1]
    rfl
  have himp : extractImportBased r = none := by
    rw [extractImportBased, scanBlocks_nil importBlockAt _
      (fun s hs => importBlockAt_none hs) (fun c t ht => hasSub_tail_false ht) _ _ h2]
    rfl
  have hpat : extractPatternMatching r = none := by
    rw [extractPatternMatching, scanBlocks_nil fromImportBlockAt _
      (fun s hs => fromImportBlockAt_none hs) (fun c t ht => hasSub_tail_false ht) _ _ h2]
    rw [scanBlocks_nil importStrandsBlockAt _
      (fun s hs => importStrandsBlockAt_none hs) (fun c t ht => hasSub_tail_false ht) _ _ h3]
    rw [scanBlocks_nil agentCallBlockAt _
      (fun s hs => agentCallBlockAt_none hs) (fun c t ht => hasSub_tail_false ht) _ _ h4]
    rfl
  have hfail : extractCodeWithFallbacks r =
      { success := false, code := none, method := none, confidence10 := none,
        error := some "All code extraction methods failed",
        rawResponse := some (pyTake 500 r) } := by
    rw [extractCodeWithFallbacks, extractionMethods]
    rw [tryMethods]
    rw [hpy, tryMethods, hgen, tryMethods, himp, tryMethods, hpat, tryMethods]
  refine ⟨by rw [hfail], by rw [hfail], by rw [hfail], ?_, ?_⟩
  · intro hcon
    have := congrArg String.data hcon
    simp only [pyTake] at this
    rw [List.take_eq_nil_iff] at this
    rcases this with h' | h'
    · cases h'
    · exact hne (by
        cases r with
        | mk d =>
          simp only at h'
          rw [h'])
  · show (r.data.take 500).length ≤ 500
    rw [List.length_take]
    omega

theorem extraction_failure_contract_witness :
    ("hello world, nothing to see" : String) ≠ "" ∧
      (extractCodeWithFallbacks "hello world, nothing to see").success = false ∧
      (extractCodeWithFallbacks "hello world, nothing to see").rawResponse =
        some (pyTake 500 "hello world, nothing to see") ∧
      pyTake 500 "hello world, nothing to see" ≠ "" := by
  have h := extraction_failure_contract "hello world, nothing to see"
    (by decide) (by decide) (by decide) (by decide) (by decide)
  exact ⟨by decide, h.1, h.2.1, h.2.2.2.1⟩

/-- C4 counterexample: on the empty response all four methods fail and the
raw-response preview is the empty string — not a non-empty preview as the
claim states. -/
theorem extraction_failure_empty_counterexample :
    (extractCodeWithFallbacks "").success = false ∧
      (extractCodeWithFallbacks "").rawResponse = some "" := by
  constructor <;> decide

/-! ## Streaming branch of `AgentService._process_agentcore_response`
(`backend/services/agent_service.py`).  The transport's `iter_lines()` is
modelled as the list of decoded lines (line terminators removed; an empty
SSE separator line arrives as the empty list).  `json.loads` on a `data:`
payload is modelled for payloads that are JSON string literals; payloads
that parse as non-string JSON values (on which the source would raise
`TypeError` while concatenating) are outside the model and treated as
undecodable, like any other `JSONDecodeError` payload.  Surrogate escapes
are likewise outside the model (Lean `Char` cannot carry lone
surrogates). -/

/-- Python `str.replace(a, rep)` for a single-character pattern. -/
def replaceChar (a : Char) (rep : List Char) : List Char → List Char
  | [] => []
  | c :: t => (if c = a then rep else [c]) ++ replaceChar a rep t

/-- `text.replace('\n', '\\n').replace('\r', '\\r')`: escape raw newlines
for a single-line SSE `data:` field. -/
def escapeSSE (t : List Char) : List Char :=
  replaceChar '\r' ['\\', 'r'] (replaceChar '\n' ['\\', 'n'] t)

/-- JSON whitespace (`json.loads` strips these around a document). -/
def jsonWS (c : Char) : Bool :=
  c = ' ' || c = '\t' || c = '\n' || c = '\r'

/-- Strip JSON whitespace from both ends. -/
def jwsStrip (l : List Char) : List Char :=
  ((l.dropWhile jsonWS).reverse.dropWhile jsonWS).reverse

/-- Hexadecimal digit value. -/
def hexDigitVal (c : Char) : Option Nat :=
  if '0' ≤ c ∧ c ≤ '9' then some (c.toNat - 48)
  else if 'a' ≤ c ∧ c ≤ 'f' then some (c.toNat - 87)
  else if 'A' ≤ c ∧ c ≤ 'F' then some (c.toNat - 55)
  else none

/-- Body of a JSON string literal after the opening quote: decoded
characters and the remainder after the closing quote. -/
def jsonStrBody : List Char → Option (List Char × List Char)
  | [] => none
  | '"' :: t => some ([], t)
  | '\\' :: e :: t =>
    match e with
    | '"' => (jsonStrBody t).map (fun p => ('"' :: p.1, p.2))
    | '\\' => (jsonStrBody t).map (fun p => ('\\' :: p.1, p.2))
    | '/' => (jsonStrBody t).map (fun p => ('/' :: p.1, p.2))
    | 'b' => (jsonStrBody t).map (fun p => ('\x08' :: p.1, p.2))
    | 'f' => (jsonStrBody t).map (fun p => ('\x0c' :: p.1, p.2))
    | 'n' => (jsonStrBody t).map (fun p => ('\n' :: p.1, p.2))
    | 'r' => (jsonStrBody t).map (fun p => ('\r' :: p.1, p.2))
    | 't' => (jsonStrBody t).map (fun p => ('\t' :: p.1, p.2))
    | 'u' =>
      match t with
      | h1 :: h2 :: h3 :: h4 :: t' =>
        match hexDigitVal h1, hexDigitVal h2, hexDigitVal h3, hexDigitVal h4 with
        | some v1, some v2, some v3, some v4 =>
          let code := v1 * 4096 + v2 * 256 + v3 * 16 + v4
          if 0xD800 ≤ code ∧ code ≤ 0xDFFF then none
          else (jsonStrBody t').map (fun p => (Char.ofNat code :: p.1, p.2))
        | _, _, _, _ => none
      | _ => none
    | _ => none
  | ['\\'] => none
  | c :: t =>
    if c.toNat < 32 then none
    else (jsonStrBody t).map (fun p => (c :: p.1, p.2))

/-- `json.loads(chunk)` restricted to JSON string-literal documents:
`some text` when the chunk is a quoted string, `none` when decoding fails. -/
def pyJsonLoadsStr (s : List Char) : Option (List Char) :=
  match jwsStrip s with
  | '"' :: t =>
    match jsonStrBody t with
    | some (d, rest) => if rest = [] then some d else none
    | none => none
  | _ => none

/-- Lowercase hexadecimal digit. -/
def hexDigit (n : Nat) : Char :=
  if n < 10 then Char.ofNat (48 + n) else Char.ofNat (87 + n)

/-- Four lowercase hex digits of a value below 0x10000. -/
def hex4 (n : Nat) : List Char :=
  [hexDigit (n / 4096 % 16), hexDigit (n / 256 % 16), hexDigit (n / 16 % 16),
    hexDigit (n % 16)]

/-- One character under `json.dumps` default (`ensure_ascii=True`)
escaping. -/
def jsonEscapeChar (c : Char) : List Char :=
  if c = '"' then ['\\', '"']
  else if c = '\\' then ['\\', '\\']
  else if c = '\n' then ['\\', 'n']
  else if c = '\r' then ['\\', 'r']
  else if c = '\t' then ['\\', 't']
  else if c = '\x08' then ['\\', 'b']
  else if c = '\x0c' then ['\\', 'f']
  else if c.toNat < 32 ∨ c.toNat > 126 then
    if c.toNat ≤ 0xFFFF then '\\' :: 'u' :: hex4 c.toNat
    else
      ('\\' :: 'u' :: hex4 (0xD800 + (c.toNat - 0x10000) / 1024)) ++
        ('\\' :: 'u' :: hex4 (0xDC00 + (c.toNat - 0x10000) % 1024))
  else [c]

/-- `json.dumps` of a string value. -/
def jsonEncodeString (l : List Char) : List Char :=
  '"' :: (l.map jsonEscapeChar).flatten ++ ['"']

/-- The synthetic final SSE frame of the streaming branch:
`data: [FINAL]` followed by `json.dumps` of the result dictionary (keys in
insertion order, default separators). -/
def finalFrame (requestId : Option String) (fullContent : List Char) : List Char :=
  "data: [FINAL]\x7b\"success\": true, \"code\": ".data ++
    jsonEncodeString fullContent ++
    ", \"metadata\": \x7b\"request_id\": ".data ++
    (match requestId with
      | some rid => jsonEncodeString rid.data
      | none => "null".data) ++
    ", \"streaming\": true, \"generation_method\": \"agentcore_expert_streaming\"\x7d\x7d".data ++
    ['\n', '\n']

/-- The per-line loop of the streaming branch: returns the re-emitted frames
and the accumulated `full_content`.  The guard `if line:` of the source
skips empty lines entirely, so the whitespace-preserving branch
(`elif decoded_line.strip() == ""`) is reached only by non-empty
whitespace-only lines. -/
def streamGo (acc : List Char) : List (List Char) → List (List Char) × List Char
  | [] => ([], acc)
  | line :: rest =>
    if line = [] then streamGo acc rest
    else if "data: ".data.isPrefixOf line then
      let chunk := line.drop 6
      match pyJsonLoadsStr chunk with
      | some text =>
        let p := streamGo (acc ++ text) rest
        (("data: ".data ++ escapeSSE text ++ ['\n', '\n']) :: p.1, p.2)
      | none =>
        let p := streamGo (acc ++ chunk) rest
        (("data: ".data ++ chunk ++ ['\n', '\n']) :: p.1, p.2)
    else if pyStrip line = [] then
      let p := streamGo acc rest
      ((line ++ ['\n']) :: p.1, p.2)
    else
      let p := streamGo (acc ++ line ++ ['\n']) rest
      (("data: ".data ++ line ++ ['\n', '\n']) :: p.1, p.2)

/-- The streaming branch of `_process_agentcore_response`: re-emit each
line as an SSE frame and close with the synthetic final frame. -/
def processAgentcoreStream (requestId : Option String) (lines : List (List Char)) :
    List (List Char) :=
  let p := streamGo [] lines
  p.1 ++ [finalFrame requestId p.2]

set_option maxRecDepth 4096 in
/-- C1 at the claim's own scenario (code bug): for the input stream
`data: "hello"`, blank line, `data: " world"`, the guard `if line:` drops
the empty separator line — contradicting both the claim and the source's
own `# Preserve empty lines for SSE format` comment — so the re-emitted
stream is the two content frames followed directly by the final frame, with
no blank line forwarded; the final frame's accumulated text is the correct
concatenation `hello world`. -/
theorem agentcore_stream_drops_blank_line :
    processAgentcoreStream (some "req-1")
        ["data: \"hello\"".data, [], "data: \" world\"".data] =
      ["data: hello\n\n".data, "data:  world\n\n".data,
        ("data: [FINAL]\x7b\"success\": true, \"code\": \"hello world\", \"metadata\": \x7b\"request_id\": \"req-1\", \"streaming\": true, \"generation_method\": \"agentcore_expert_streaming\"\x7d\x7d\n\n").data] ∧
      ¬ ("\n" : String).data ∈ processAgentcoreStream (some "req-1")
        ["data: \"hello\"".data, [], "data: \" world\"".data] := by
  constructor <;> decide

/-! ## `AgentService.generate_code_freeform` and
`AgentService._try_agentcore_expert_agent`
(`backend/services/agent_service.py`).  The AWS side is modelled by an
environment record: the `USE_AGENTCORE_RUNTIME` variable, the SSM-resolved
agent reference (`none` covers a missing parameter, the literal `'None'`
value and a lookup exception, all of which the source maps to `None`), and
the outcome of `invoke_agent_runtime` (an exception, or — in the streaming
mode modelled here — the delivered SSE line stream, which the source then
re-emits through the streaming branch embedded above as
`processAgentcoreStream`). -/

/-- `AgentService._should_use_agentcore_runtime`:
`os.getenv('USE_AGENTCORE_RUNTIME', 'true').lower() == 'false'` disables the
remote path; everything else enables it. -/
def shouldUseAgentcoreRuntime (envVar : Option String) : Bool :=
  !(pyLower (envVar.getD "true") = "false")

/-- The remote-invocation environment of one request. -/
structure RemoteEnv where
  useAgentcoreEnv : Option String
  expertAgentArn : Option String
  invokeOutcome : Except PyExn (List (List Char))

/-- `AgentService._try_agentcore_expert_agent` (streaming mode): `none`
models the source's `return None` — feature flag off, no discoverable agent
reference, or any exception from the invocation (the `except` clause turns
it into `None`, never re-raising). -/
def tryAgentcoreExpertAgent (env : RemoteEnv) (requestId : Option String) :
    Option (List (List Char)) :=
  if shouldUseAgentcoreRuntime env.useAgentcoreEnv = false then none
  else
    match env.expertAgentArn with
    | none => none
    | some _ =>
      match env.invokeOutcome with
      | .error _ => none
      | .ok lines => some (processAgentcoreStream requestId lines)

/-- Character class `[a-zA-Z0-9\-\.]` of the S3-URI regex. -/
def isS3BucketChar (c : Char) : Bool :=
  c.isAlphanum || c = '-' || c = '.'

/-- Character class `[a-zA-Z0-9\-\./]` of the S3-URI regex. -/
def isS3KeyChar (c : Char) : Bool :=
  c.isAlphanum || c = '-' || c = '.' || c = '/'

/-- One attempted match of `r's3://[a-zA-Z0-9\-\.]+/[a-zA-Z0-9\-\./]+'`. -/
def s3UriAt (s : List Char) : Option (List Char × List Char) :=
  if "s3://".data.isPrefixOf s then
    let r := s.drop 5
    let bucket := r.takeWhile isS3BucketChar
    let rest := r.drop bucket.length
    if bucket ≠ [] ∧ rest.head? = some '/' then
      let key := (rest.drop 1).takeWhile isS3KeyChar
      if key ≠ [] then
        some ("s3://".data ++ bucket ++ '/' :: key, (rest.drop 1).drop key.length)
      else none
    else none
  else none

/-- The `s3_uris` dictionary keyed by the three slots. -/
structure S3Uris where
  pureStrands : Option String
  agentcoreReady : Option String
  requirements : Option String
deriving DecidableEq, Repr

/-- Classify found URIs by filename suffix, later finds overwriting. -/
def classifyS3Uris (uris : List (List Char)) : S3Uris :=
  uris.foldl
    (fun acc uri =>
      if hasSub "pure_strands.py".data uri then
        { acc with pureStrands := some (String.mk uri) }
      else if hasSub "agentcore_ready.py".data uri then
        { acc with agentcoreReady := some (String.mk uri) }
      else if hasSub "requirements.txt".data uri then
        { acc with requirements := some (String.mk uri) }
      else acc)
    ⟨none, none, none⟩

/-- `AgentService._extract_s3_uris_from_response`. -/
def extractS3UrisFromResponse (responseText : String) : S3Uris :=
  classifyS3Uris (scanBlocks s3UriAt responseText.data.length responseText.data)

/-- Python truthiness of the `s3_uris` dict: empty iff no slot was set. -/
def s3UrisEmpty (u : S3Uris) : Bool :=
  u.pureStrands.isNone && u.agentcoreReady.isNone && u.requirements.isNone

/-- `AgentService._try_fetch_all_files`: probe the artifact store for all
three slots, keeping the URIs of the ones that exist. -/
def tryFetchAllFiles (bucket : String) (backend : String → S3GetResp)
    (requestId : String) : S3Uris :=
  { pureStrands :=
      if (getCodeFile bucket backend requestId "pure_strands").status = "success" then
        (getCodeFile bucket backend requestId "pure_strands").s3Uri
      else none,
    agentcoreReady :=
      if (getCodeFile bucket backend requestId "agentcore_ready").status = "success" then
        (getCodeFile bucket backend requestId "agentcore_ready").s3Uri
      else none,
    requirements :=
      if (getCodeFile bucket backend requestId "requirements").status = "success" then
        (getCodeFile bucket backend requestId "requirements").s3Uri
      else none }

/-- Result of `AgentService._fetch_code_from_s3`. -/
structure FetchResult where
  success : Bool
  code : Option String
deriving DecidableEq, Repr

/-- `AgentService._fetch_code_from_s3`. -/
def fetchCodeFromS3 (bucket : String) (backend : String → S3GetResp)
    (requestId codeType : String) : FetchResult :=
  let r := getCodeFile bucket backend requestId codeType
  if r.status = "success" then { success := true, code := r.codeContent }
  else { success := false, code := none }

/-- The uniform result of one generation, restricted to the fields the
claims reference (the metadata-mining and security-annotation fields of the
source dictionary are annotations no claim touches). -/
structure GenResult where
  generatedCode : String
  finalWorkingCode : String
  generationMethod : String
deriving DecidableEq, Repr

/-- The local branch of `generate_code_freeform`: the in-process agent call
is the oracle `agentCall` (its exception propagates, as in the source's
re-raising `except`); response normalization, S3-URI detection, store
probing, layered extraction and final cleanup are the embedded functions.
An extraction failure raises `ValueError` (`Code extraction failed`). -/
def localGenerate (bucket : String) (backend : String → S3GetResp)
    (requestId : Option String) (agentCall : Except PyExn RMessage) :
    Except PyExn GenResult :=
  match agentCall with
  | .error e => .error e
  | .ok msg =>
    let responseText := extractResponseTextProperly msg
    let uris0 := extractS3UrisFromResponse responseText
    let uris :=
      if s3UrisEmpty uris0 then
        match requestId with
        | some rid => tryFetchAllFiles bucket backend rid
        | none => uris0
      else uris0
    let ce : ExtractionOutcome :=
      if s3UrisEmpty uris = false ∧ requestId.isSome then
        let fr := fetchCodeFromS3 bucket backend (requestId.getD "") "pure_strands"
        if fr.success then
          { success := true, code := fr.code, method := none, confidence10 := none,
            error := none, rawResponse := none }
        else extractCodeWithFallbacks responseText
      else extractCodeWithFallbacks responseText
    if ce.success then
      let finalCode := cleanupCodeFormatting (ce.code.getD "")
      .ok { generatedCode := finalCode, finalWorkingCode := finalCode,
            generationMethod := "free_form" }
    else .error (.valueError "Code extraction failed")

/-- The value `generate_code_freeform` hands back: either the remote
stream's re-emitted frames or the locally generated result. -/
inductive PathOutcome where
  | remoteStream (frames : List (List Char))
  | localResult (r : GenResult)
deriving DecidableEq

/-- `AgentService.generate_code_freeform` (streaming remote mode): try the
remote expert agent, fall back to local generation when it returns `None`. -/
def generateCodeFreeform (env : RemoteEnv) (bucket : String)
    (backend : String → S3GetResp) (requestId : Option String)
    (agentCall : Except PyExn RMessage) : Except PyExn PathOutcome :=
  match tryAgentcoreExpertAgent env requestId with
  | some frames => .ok (.remoteStream frames)
  | none =>
    match localGenerate bucket backend requestId agentCall with
    | .ok r => .ok (.localResult r)
    | .error e => .error e

/-- C5: remote unavailability (feature flag off, no discoverable agent
reference) or any invocation exception makes the remote attempt yield
`None` — never an error — after which the final outcome is exactly the
local path's; when the remote attempt yields a result, the final outcome is
exactly that remote result.  So exactly one of the two paths produces the
final result, and remote failure is never propagated to the caller. -/
theorem generate_code_freeform_fallback (env : RemoteEnv) (bucket : String)
    (backend : String → S3GetResp) (requestId : Option String)
    (agentCall : Except PyExn RMessage) :
    (shouldUseAgentcoreRuntime env.useAgentcoreEnv = false ∨
        env.expertAgentArn = none ∨ (∃ e, env.invokeOutcome = .error e) →
      tryAgentcoreExpertAgent env requestId = none) ∧
    (tryAgentcoreExpertAgent env requestId = none →
      generateCodeFreeform env bucket backend requestId agentCall =
        (localGenerate bucket backend requestId agentCall).map PathOutcome.localResult) ∧
    (∀ frames, tryAgentcoreExpertAgent env requestId = some frames →
      generateCodeFreeform env bucket backend requestId agentCall =
        .ok (.remoteStream frames)) := by
  refine ⟨?_, ?_, ?_⟩
  · rintro (h | h | ⟨e, h⟩)
    · simp [tryAgentcoreExpertAgent, h]
    · simp [tryAgentcoreExpertAgent, h]
    · rw [tryAgentcoreExpertAgent]
      split_ifs
      · rfl
      · cases harn : env.expertAgentArn with
        | none => rfl
        | some arn => rw [h]
  · intro h
    rw [generateCodeFreeform, h]
    cases hl : localGenerate bucket backend requestId agentCall <;> simp [hl, Except.map]
  · intro frames h
    rw [generateCodeFreeform, h]

theorem generate_code_freeform_fallback_witness :
    tryAgentcoreExpertAgent ⟨some "false", none, .error .otherExn⟩ (some "r1") = none ∧
      generateCodeFreeform ⟨some "false", none, .error .otherExn⟩ "b" (stateBackend [])
          (some "r1") (.ok (.mstr "hi")) =
        (localGenerate "b" (stateBackend []) (some "r1")
            (.ok (.mstr "hi"))).map PathOutcome.localResult := by
  have h := generate_code_freeform_fallback ⟨some "false", none, .error .otherExn⟩ "b"
    (stateBackend []) (some "r1") (.ok (.mstr "hi"))
  have h1 := h.1 (Or.inl (by decide))
  exact ⟨h1, h.2.1 h1⟩
